import Mathlib

/-!
Shallow embedding of the async_redis_client dispatch engine.

The repository sources under verification are the two headers
(`src/unnamed/part_000`, the authoritative revision, and
`src/src/async_redis_client/async_redis_client.h`, an earlier revision).
Pure member functions that appear in the header (`RedisRequest::Fail`,
`RedisRequest::Success`, `WorkThread::AsyncSendUnlock`) are translated
directly.  The bodies of `Execute`, `Start`, `DoStopOrJoin`,
`WorkThreadMain`, `OnAsyncHandle` and `OnRedisReply` live in a `.cc` file
that is not part of the sources; the state machine below models them from
the specification, as single atomic transitions for each mutex-protected
critical section.
-/

namespace AsyncRedisClient

/-- ClientStatus from part_000 lines 94-99. -/
inductive ClientStatus where
  | kInitial
  | kStarted
  | kStop
  | kJoin
deriving DecidableEq

/-- WorkThreadStatus from part_000 lines 101-105. -/
inductive WorkThreadStatus where
  | kUnknown
  | kExiting
  | kRunning
deriving DecidableEq

/-- Reply models a `redisReply *`: `none` is `nullptr`, `some v` an actual
decoded reply (the payload is abstracted to a number). -/
abbrev Reply := Option Nat

/-- Result of one call to `RedisRequest::Fail` or `RedisRequest::Success`:
either exactly one invocation of the stored function object `f` with the
given reply pointer, no invocation at all, or undefined behaviour /
termination (dereferencing a null `shared_ptr`, or invoking an empty
`std::function` inside a `noexcept` member). -/
inductive CallResult where
  | calls (f : Nat) (reply : Reply)
  | noop
  | crash
deriving DecidableEq

/-- RedisRequest from part_000 lines 107-145.  The callback field models
`std::shared_ptr<req_callback_t>`: `none` is a null shared_ptr,
`some none` holds an empty `std::function`, and `some (some f)` holds the
callable function object `f`. -/
structure RedisRequest where
  cmd : List String
  callback : Option (Option Nat)
deriving DecidableEq

/-- RedisRequest.Fail from part_000 lines 134-137: `(*callback)(nullptr);`
with no guard.  A null shared_ptr is dereferenced (undefined behaviour),
an empty `std::function` raises `bad_function_call` inside `noexcept`
(std::terminate); both are modelled as `crash`.  A callable object is
invoked exactly once with the null reply. -/
def RedisRequest.Fail (r : RedisRequest) : CallResult :=
  match r.callback with
  | none => CallResult.crash
  | some none => CallResult.crash
  | some (some f) => CallResult.calls f none

/-- RedisRequest.Success from part_000 lines 139-144:
`if (callback && *callback) { (*callback)(reply); }` — the invocation is
guarded by the null / emptiness check. -/
def RedisRequest.Success (r : RedisRequest) (reply : Reply) : CallResult :=
  match r.callback with
  | some (some f) => CallResult.calls f reply
  | _ => CallResult.noop

/-- Modulus of the dispatch counter: `std::atomic_uint seq_num` (part_000
line 199) is a 32-bit unsigned integer, wrapping modulo 2^32. -/
def UINT_MOD : Nat := 4294967296

/-- Modelled from the spec: worker selection in `Execute` (body not in the
sources) — "target = dispatch_counter.increment() mod thread_count". -/
def execTarget (seq threadNum : Nat) : Nat := seq % threadNum

/-- Modelled from the spec: the post-increment value of `seq_num` after one
`Execute` call; the 32-bit unsigned counter wraps modulo 2^32. -/
def execSeq (seq : Nat) : Nat := (seq + 1) % UINT_MOD

/-- The counter value before the k-th of a run of consecutive `Execute`
calls whose first call observes counter value `c`. -/
def seqIter (c : Nat) : Nat → Nat
  | 0 => c
  | k + 1 => execSeq (seqIter c k)

/-- The workers selected by `n` consecutive `Execute` calls starting from
counter value `c`, with `T` worker threads. -/
def targets (c T n : Nat) : List Nat :=
  (List.range n).map (fun k => execTarget (seqIter c k) T)

/-- Observable events of the dispatch engine: a callback invocation for the
request with the given id and reply pointer, or a `uv_async_send` on the
wakeup handle of the given worker. -/
inductive Event where
  | cb (req : Nat) (reply : Reply)
  | send (worker : Nat)
deriving DecidableEq

/-- WorkThread from part_000 lines 147-195.  `asyncHandleInit` models
`async_handle != nullptr` (per invariant 3 of the source, non-null exactly
when the `uv_async_t` has been initialised); `inbox` models the
`request_vec` unique_ptr (`none` = nulled); requests are identified by
ids.  `dispatched` holds the ids drained from the inbox and handed to a
connection but whose reply has not yet arrived; `exited` records that the
thread function has returned.  The per-worker mutex `mux` is modelled by
making every critical section one atomic `Step`. -/
structure WorkThread where
  status : WorkThreadStatus
  asyncHandleInit : Bool
  inbox : Option (List Nat)
  dispatched : List Nat
  exited : Bool
deriving DecidableEq

/-- WorkThread.AsyncSendUnlock from part_000 lines 182-187:
`if (async_handle) uv_async_send(async_handle);` — the emitted event names
the worker index `i`. -/
def WorkThread.AsyncSendUnlock (w : WorkThread) (i : Nat) : List Event :=
  if w.asyncHandleInit then [Event.send i] else []

/-- The wakeup signals sent by `DoStopOrJoin` to the workers, one
`AsyncSend` (lock; `AsyncSendUnlock`; unlock) per worker, indexed from
`k`. -/
def sendAllFrom (k : Nat) : List WorkThread → List Event
  | [] => []
  | w :: ws => w.AsyncSendUnlock k ++ sendAllFrom (k + 1) ws

/-- All wakeup signals sent by `DoStopOrJoin` over the worker vector. -/
def sendAll (ws : List WorkThread) : List Event :=
  sendAllFrom 0 ws

/-- AsyncRedisClient state (part_000 lines 17-23 and 197-200): the four
configuration fields are abstracted to `threadNum` (the only one the
dispatch logic reads), plus the atomic `status_`, the atomic `seq_num`
(kept below 2^32) and the worker vector. -/
structure ClientState where
  status : ClientStatus
  seq : Nat
  threadNum : Nat
  workers : List WorkThread
deriving DecidableEq

/-- A worker slot as freshly constructed by `Start`: unknown status, no
published handle, an allocated empty inbox, nothing dispatched. -/
def freshWorker : WorkThread :=
  ⟨WorkThreadStatus.kUnknown, false, some [], [], false⟩

/-- The worker vector freshly constructed by `Start`. -/
def freshWorkers (n : Nat) : List WorkThread :=
  List.replicate n freshWorker

/-- Replace worker `i` of the state. -/
def setWorker (s : ClientState) (i : Nat) (w : WorkThread) : ClientState :=
  ⟨s.status, s.seq, s.threadNum, s.workers.set i w⟩

/-- Actions of the dispatch engine; each is one atomic transition. -/
inductive Action where
  | configure (tn : Nat)
  | start
  | publish (i : Nat)
  | exec (r : Nat)
  | drain (i : Nat)
  | complete (i r : Nat) (reply : Reply)
  | stopBegin (op : ClientStatus)
  | shutdownStop (i : Nat)
  | shutdownJoin (i : Nat)
  | stopReturn
deriving DecidableEq

/-- Modelled from the spec: one atomic transition of the dispatch engine.
The bodies of `Execute`, `Start`, `DoStopOrJoin`, `WorkThreadMain`,
`OnAsyncHandle` and `OnRedisReply` are not among the repository sources
(only the header is), so each constructor follows the specification's
description of the corresponding operation; mutex-protected critical
sections become single atomic steps.

  * `configure`: mutation of the configuration fields, legal only while
    status = Initial.
  * `start`: `Start()` spawns the worker vector and sets status = Started.
  * `publish`: a worker's Reactor finished initialising and the worker
    publishes its wakeup handle under its mutex.
  * `execRejected` / `execNullInbox` / `execAccepted`: the three paths of
    `Execute` — status ≠ Started, inbox observed null under the worker
    mutex, and the normal append + `AsyncSendUnlock` path.
  * `drain`: the worker wakes and swaps out its inbox contents, leaving an
    empty non-null inbox; drained requests are handed to connections.
  * `complete`: the Reactor completion for a dispatched request fires and
    the callback is invoked with the (possibly null, on transport failure)
    reply.
  * `stopBegin`: `DoStopOrJoin` flips the status and signals every worker.
  * `shutdownStop` / `shutdownJoin`: a worker's exit path — under Stop it
    fails the final inbox snapshot, under Join it may exit only once its
    inbox and in-flight set are empty; both null the inbox under the mutex
    and exit.
  * `stopReturn`: `DoStopOrJoin` returns after joining all (exited)
    workers and resets status to Initial. -/
inductive Step : ClientState → Action → List Event → ClientState → Prop where
  | configure (s : ClientState) (tn : Nat) :
      s.status = ClientStatus.kInitial →
      Step s (Action.configure tn) [] ⟨s.status, s.seq, tn, s.workers⟩
  | start (s : ClientState) :
      s.status = ClientStatus.kInitial →
      s.workers = [] →
      Step s Action.start []
        ⟨ClientStatus.kStarted, s.seq, s.threadNum, freshWorkers s.threadNum⟩
  | publish (s : ClientState) (i : Nat) (w : WorkThread) :
      s.workers[i]? = some w →
      w.exited = false →
      w.asyncHandleInit = false →
      Step s (Action.publish i) []
        (setWorker s i ⟨WorkThreadStatus.kRunning, true, w.inbox, w.dispatched, w.exited⟩)
  | execRejected (s : ClientState) (r : Nat) :
      s.status ≠ ClientStatus.kStarted →
      Step s (Action.exec r) [Event.cb r none] s
  | execNullInbox (s : ClientState) (r : Nat) (w : WorkThread) :
      s.status = ClientStatus.kStarted →
      s.workers[execTarget s.seq s.threadNum]? = some w →
      w.inbox = none →
      Step s (Action.exec r) [Event.cb r none]
        ⟨s.status, execSeq s.seq, s.threadNum, s.workers⟩
  | execAccepted (s : ClientState) (r : Nat) (w : WorkThread) (l : List Nat) :
      s.status = ClientStatus.kStarted →
      s.workers[execTarget s.seq s.threadNum]? = some w →
      w.inbox = some l →
      Step s (Action.exec r) (w.AsyncSendUnlock (execTarget s.seq s.threadNum))
        ⟨s.status, execSeq s.seq, s.threadNum,
          s.workers.set (execTarget s.seq s.threadNum)
            ⟨w.status, w.asyncHandleInit, some (l ++ [r]), w.dispatched, w.exited⟩⟩
  | drain (s : ClientState) (i : Nat) (w : WorkThread) (l : List Nat) :
      (s.status = ClientStatus.kStarted ∨ s.status = ClientStatus.kJoin) →
      s.workers[i]? = some w →
      w.inbox = some l →
      w.exited = false →
      Step s (Action.drain i) []
        (setWorker s i ⟨w.status, w.asyncHandleInit, some [], w.dispatched ++ l, w.exited⟩)
  | complete (s : ClientState) (i r : Nat) (reply : Reply) (w : WorkThread) :
      s.workers[i]? = some w →
      r ∈ w.dispatched →
      Step s (Action.complete i r reply) [Event.cb r reply]
        (setWorker s i ⟨w.status, w.asyncHandleInit, w.inbox, w.dispatched.erase r, w.exited⟩)
  | stopBegin (s : ClientState) (op : ClientStatus) :
      s.status = ClientStatus.kStarted →
      (op = ClientStatus.kStop ∨ op = ClientStatus.kJoin) →
      Step s (Action.stopBegin op) (sendAll s.workers) ⟨op, s.seq, s.threadNum, s.workers⟩
  | shutdownStop (s : ClientState) (i : Nat) (w : WorkThread) (l : List Nat) :
      s.status = ClientStatus.kStop →
      s.workers[i]? = some w →
      w.inbox = some l →
      w.dispatched = [] →
      Step s (Action.shutdownStop i) (l.map (fun r => Event.cb r none))
        (setWorker s i ⟨WorkThreadStatus.kExiting, false, none, [], true⟩)
  | shutdownJoin (s : ClientState) (i : Nat) (w : WorkThread) :
      s.status = ClientStatus.kJoin →
      s.workers[i]? = some w →
      w.inbox = some [] →
      w.dispatched = [] →
      Step s (Action.shutdownJoin i) []
        (setWorker s i ⟨WorkThreadStatus.kExiting, false, none, [], true⟩)
  | stopReturn (s : ClientState) :
      (s.status = ClientStatus.kStop ∨ s.status = ClientStatus.kJoin) →
      (∀ w ∈ s.workers, w.exited = true ∧ w.inbox = none ∧ w.dispatched = []) →
      Step s Action.stopReturn [] ⟨ClientStatus.kInitial, s.seq, s.threadNum, []⟩

/-- A finite run of the engine, recording the actions taken and the events
emitted. -/
inductive Trace : ClientState → List Action → List Event → ClientState → Prop where
  | refl (s : ClientState) : Trace s [] [] s
  | step (s s' s'' : ClientState) (a : Action) (e es : List Event) (acts : List Action) :
      Step s a e s' → Trace s' acts es s'' → Trace s (a :: acts) (e ++ es) s''

/-- Whether an event is a callback invocation for request `r`. -/
def isCbOf (e : Event) (r : Nat) : Bool :=
  match e with
  | Event.cb q _ => q == r
  | _ => false

/-- Number of callback invocations for request `r` among the events. -/
def cbCount (evs : List Event) (r : Nat) : Nat :=
  evs.countP (fun e => isCbOf e r)

/-- Whether an action is an `Execute` call submitting request `r`. -/
def isExecOf (a : Action) (r : Nat) : Bool :=
  match a with
  | Action.exec q => q == r
  | _ => false

/-- Number of `Execute` calls submitting request `r` among the actions. -/
def execCount (acts : List Action) (r : Nat) : Nat :=
  acts.countP (fun a => isExecOf a r)

/-- How many copies of request `r` a worker currently holds, queued in its
inbox or dispatched and awaiting completion. -/
def wPending (w : WorkThread) (r : Nat) : Nat :=
  (match w.inbox with
   | none => 0
   | some l => l.count r) + w.dispatched.count r

/-- How many copies of request `r` the whole client currently holds. -/
def pending (s : ClientState) (r : Nat) : Nat :=
  (s.workers.map (fun w => wPending w r)).sum

lemma sum_map_set {α : Type} (f : α → Nat) :
    ∀ (l : List α) (i : Nat) (v w : α), l[i]? = some v →
      ((l.set i w).map f).sum + f v = (l.map f).sum + f w := by
  intro l
  induction l with
  | nil => intro i v w h; simp at h
  | cons a t ih =>
    intro i v w h
    cases i with
    | zero =>
      simp only [List.getElem?_cons_zero, Option.some.injEq] at h
      subst h
      simp only [List.set_cons_zero, List.map_cons, List.sum_cons]
      omega
    | succ j =>
      simp only [List.getElem?_cons_succ] at h
      have hih := ih j v w h
      simp only [List.set_cons_succ, List.map_cons, List.sum_cons]
      omega

lemma cbCount_append (e1 e2 : List Event) (r : Nat) :
    cbCount (e1 ++ e2) r = cbCount e1 r + cbCount e2 r :=
  List.countP_append _ _ _

lemma cbCount_single (q : Nat) (reply : Reply) (r : Nat) :
    cbCount [Event.cb q reply] r = if q = r then 1 else 0 := by
  by_cases h : q = r <;> simp [cbCount, isCbOf, h]

lemma cbCount_AsyncSendUnlock (w : WorkThread) (i r : Nat) :
    cbCount (w.AsyncSendUnlock i) r = 0 := by
  unfold WorkThread.AsyncSendUnlock
  cases w.asyncHandleInit <;> simp [cbCount, isCbOf]

lemma cbCount_sendAllFrom (k : Nat) (ws : List WorkThread) (r : Nat) :
    cbCount (sendAllFrom k ws) r = 0 := by
  induction ws generalizing k with
  | nil => rfl
  | cons w ws ih =>
    simp only [sendAllFrom, cbCount_append, cbCount_AsyncSendUnlock, ih]

lemma cbCount_map_fail (l : List Nat) (r : Nat) :
    cbCount (l.map (fun q => Event.cb q none)) r = l.count r := by
  induction l with
  | nil => rfl
  | cons q l ih =>
    by_cases h : q = r <;>
      simp [cbCount, isCbOf, List.countP_cons, List.count_cons, h] at * <;>
      omega

/-- Contribution of one action to `execCount`: 1 for the `Execute` call
submitting `r`, 0 for everything else. -/
def execInc (a : Action) (r : Nat) : Nat :=
  match a with
  | Action.exec q => if q = r then 1 else 0
  | _ => 0

lemma execInc_eq (a : Action) (r : Nat) :
    (if isExecOf a r = true then 1 else 0) = execInc a r := by
  cases a <;> simp [isExecOf, execInc]

lemma execCount_cons (a : Action) (acts : List Action) (r : Nat) :
    execCount (a :: acts) r = execCount acts r + execInc a r := by
  rw [execCount, List.countP_cons, execInc_eq]
  rfl

lemma wPending_eq (w : WorkThread) (r : Nat) (l : List Nat) (h : w.inbox = some l) :
    wPending w r = l.count r + w.dispatched.count r := by
  simp [wPending, h]

lemma sum_wPending_set (ws : List WorkThread) (i : Nat) (v w : WorkThread) (r : Nat)
    (h : ws[i]? = some v) :
    ((ws.set i w).map (fun x => wPending x r)).sum + wPending v r
      = (ws.map (fun x => wPending x r)).sum + wPending w r :=
  sum_map_set _ ws i v w h

/-- One-step conservation: a step emits one callback invocation for request
`r` exactly when the number of copies of `r` held by the client drops, up
to the `+1` injection by the `Execute` call that submits `r`. -/
lemma step_conservation (s : ClientState) (a : Action) (e : List Event) (s' : ClientState)
    (r : Nat) (h : Step s a e s') :
    cbCount e r + pending s' r = pending s r + execInc a r := by
  cases h with
  | configure tn hst =>
    simp [cbCount, pending, execInc]
  | start hst hw =>
    simp [cbCount, pending, execInc, hw, freshWorkers, List.map_replicate,
      List.sum_const_nat, wPending, freshWorker]
  | publish i w hget hex hinit =>
    have hs := sum_wPending_set s.workers i w
      ⟨WorkThreadStatus.kRunning, true, w.inbox, w.dispatched, w.exited⟩ r hget
    have heq : wPending ⟨WorkThreadStatus.kRunning, true, w.inbox, w.dispatched, w.exited⟩ r
        = wPending w r := rfl
    have hz : execInc (Action.publish i) r = 0 := rfl
    simp only [cbCount, List.countP_nil, pending, setWorker, hz]
    omega
  | execRejected q hst =>
    by_cases hq : q = r
    . subst hq
      have hz : execInc (Action.exec q) q = 1 := by simp [execInc]
      simp [cbCount_single, hz, pending]
      omega
    . have hz : execInc (Action.exec q) r = 0 := by simp [execInc, hq]
      simp [cbCount_single, hz, hq, pending]
  | execNullInbox q w hst hget hinbox =>
    by_cases hq : q = r
    . subst hq
      have hz : execInc (Action.exec q) q = 1 := by simp [execInc]
      simp [cbCount_single, hz, pending]
      omega
    . have hz : execInc (Action.exec q) r = 0 := by simp [execInc, hq]
      simp [cbCount_single, hz, hq, pending]
  | execAccepted q w l hst hget hinbox =>
    have hs := sum_wPending_set s.workers (execTarget s.seq s.threadNum) w
      ⟨w.status, w.asyncHandleInit, some (l ++ [q]), w.dispatched, w.exited⟩ r hget
    have h1 : wPending w r = l.count r + w.dispatched.count r := wPending_eq w r l hinbox
    have h2 : wPending ⟨w.status, w.asyncHandleInit, some (l ++ [q]), w.dispatched, w.exited⟩ r
        = l.count r + (if q = r then 1 else 0) + w.dispatched.count r := by
      by_cases hq : q = r <;>
        simp [wPending, List.count_append, List.count_cons, hq]
    have hz : execInc (Action.exec q) r = if q = r then 1 else 0 := rfl
    rw [cbCount_AsyncSendUnlock, hz]
    simp only [pending, setWorker]
    omega
  | drain i w l hst hget hinbox hex =>
    have hs := sum_wPending_set s.workers i w
      ⟨w.status, w.asyncHandleInit, some [], w.dispatched ++ l, w.exited⟩ r hget
    have h1 : wPending w r = l.count r + w.dispatched.count r := wPending_eq w r l hinbox
    have h2 : wPending ⟨w.status, w.asyncHandleInit, some [], w.dispatched ++ l, w.exited⟩ r
        = w.dispatched.count r + l.count r := by
      simp [wPending, List.count_append]
    have hz : execInc (Action.drain i) r = 0 := rfl
    simp only [cbCount, List.countP_nil, pending, setWorker, hz]
    omega
  | complete i q reply w hget hmem =>
    have hs := sum_wPending_set s.workers i w
      ⟨w.status, w.asyncHandleInit, w.inbox, w.dispatched.erase q, w.exited⟩ r hget
    have h1 : wPending w r
        = (match w.inbox with | none => 0 | some l => l.count r) + w.dispatched.count r := rfl
    have hz : execInc (Action.complete i q reply) r = 0 := rfl
    by_cases hq : q = r
    · subst hq
      have hcnt : 0 < w.dispatched.count q := List.count_pos_iff.mpr hmem
      have h2 : wPending ⟨w.status, w.asyncHandleInit, w.inbox, w.dispatched.erase q, w.exited⟩ q
          = (match w.inbox with | none => 0 | some l => l.count q)
            + (w.dispatched.count q - 1) := by
        simp [wPending, List.count_erase_self]
      have hc1 : cbCount [Event.cb q reply] q = 1 := by simp [cbCount_single]
      simp only [pending, setWorker, hc1, hz]
      omega
    · have h2 : wPending ⟨w.status, w.asyncHandleInit, w.inbox, w.dispatched.erase q, w.exited⟩ r
          = (match w.inbox with | none => 0 | some l => l.count r) + w.dispatched.count r := by
        have he := List.count_erase_of_ne (fun hrq => hq hrq.symm) w.dispatched
        simp [wPending, he]
      have hc0 : cbCount [Event.cb q reply] r = 0 := by simp [cbCount_single, hq]
      simp only [pending, setWorker, hc0, hz]
      omega
  | stopBegin op hst hop =>
    have hz : execInc (Action.stopBegin op) r = 0 := rfl
    simp [sendAll, cbCount_sendAllFrom, pending, hz]
  | shutdownStop i w l hst hget hinbox hdisp =>
    have hs := sum_wPending_set s.workers i w
      ⟨WorkThreadStatus.kExiting, false, none, [], true⟩ r hget
    have h1 : wPending w r = l.count r := by
      simp [wPending_eq w r l hinbox, hdisp]
    have h2 : wPending ⟨WorkThreadStatus.kExiting, false, none, [], true⟩ r = 0 := rfl
    have hz : execInc (Action.shutdownStop i) r = 0 := rfl
    simp only [cbCount_map_fail, pending, setWorker, hz]
    omega
  | shutdownJoin i w hst hget hinbox hdisp =>
    have hs := sum_wPending_set s.workers i w
      ⟨WorkThreadStatus.kExiting, false, none, [], true⟩ r hget
    have h1 : wPending w r = 0 := by
      simp [wPending_eq w r [] hinbox, hdisp]
    have h2 : wPending ⟨WorkThreadStatus.kExiting, false, none, [], true⟩ r = 0 := rfl
    have hz : execInc (Action.shutdownJoin i) r = 0 := rfl
    simp only [cbCount, List.countP_nil, pending, setWorker, hz]
    omega
  | stopReturn hst hall =>
    have hp : (s.workers.map (fun w => wPending w r)).sum = 0 := by
      apply List.sum_eq_zero
      intro x hx
      obtain ⟨w, hw, rfl⟩ := List.mem_map.mp hx
      obtain ⟨_, hni, hnd⟩ := hall w hw
      simp [wPending, hni, hnd]
    have hz : execInc Action.stopReturn r = 0 := rfl
    simp [cbCount, pending, hp, hz]

/-- Conservation over a whole run: callback invocations for `r` balance
the `Execute` submissions of `r` and the change in pending copies. -/
lemma trace_conservation (s : ClientState) (acts : List Action) (evs : List Event)
    (s' : ClientState) (r : Nat) (h : Trace s acts evs s') :
    cbCount evs r + pending s' r = pending s r + execCount acts r := by
  induction h with
  | refl t => simp [cbCount, execCount]
  | step t t' t'' a e es acts hstep htr ih =>
    have hc := step_conservation t a e t' r hstep
    rw [cbCount_append, execCount_cons]
    omega

/-- C1: for every request accepted while the client status is Started, the
callback is invoked exactly once — never zero times and never twice — with
either a non-null or a null reply: over any run in which request `r` is
submitted by exactly one `Execute` call and is pending neither at the
start nor at the end (e.g. a run ending after `Stop`/`Join` completed),
exactly one callback event for `r` is emitted.  At the request level,
`RedisRequest::Success` and `RedisRequest::Fail` each perform exactly one
invocation of the stored callback when one is stored. -/
theorem C1_callback_exactly_once :
    (∀ (s : ClientState) (acts : List Action) (evs : List Event) (s' : ClientState) (r : Nat),
      Trace s acts evs s' → pending s r = 0 → pending s' r = 0 →
      execCount acts r = 1 → cbCount evs r = 1)
    ∧ (∀ (rq : RedisRequest) (f : Nat) (reply : Reply),
        rq.callback = some (some f) →
        RedisRequest.Success rq reply = CallResult.calls f reply ∧
        RedisRequest.Fail rq = CallResult.calls f none) := by
  constructor
  · intro s acts evs s' r htr hp hp' hx
    have hc := trace_conservation s acts evs s' r htr
    omega
  · intro rq f reply hcb
    constructor <;> simp [RedisRequest.Success, RedisRequest.Fail, hcb]

/-- Witness for C1 on a concrete complete run: start, one `Execute`, drain,
complete with a real reply, stop, worker exit, stop return. -/
theorem C1_callback_exactly_once_witness :
    cbCount [Event.cb 7 (some 42)] 7 = 1
    ∧ RedisRequest.Success ⟨[], some (some 5)⟩ (some 42) = CallResult.calls 5 (some 42) := by
  have htr : Trace ⟨ClientStatus.kInitial, 0, 1, []⟩
      [Action.start, Action.exec 7, Action.drain 0, Action.complete 0 7 (some 42),
        Action.stopBegin ClientStatus.kStop, Action.shutdownStop 0, Action.stopReturn]
      ([] ++ ([] ++ ([] ++ ([Event.cb 7 (some 42)] ++ ([] ++ ([] ++ ([] ++ [])))))))
      ⟨ClientStatus.kInitial, 1, 1, []⟩ := by
    refine Trace.step _ _ _ _ _ _ _ (Step.start _ rfl rfl) ?_
    refine Trace.step _ _ _ _ _ _ _
      (Step.execAccepted _ 7 freshWorker [] rfl (by decide) rfl) ?_
    refine Trace.step _ _ _ _ _ _ _
      (Step.drain _ 0 ⟨WorkThreadStatus.kUnknown, false, some [7], [], false⟩ [7]
        (Or.inl rfl) (by decide) rfl rfl) ?_
    refine Trace.step _ _ _ _ _ _ _
      (Step.complete _ 0 7 (some 42) ⟨WorkThreadStatus.kUnknown, false, some [], [7], false⟩
        (by decide) (by decide)) ?_
    refine Trace.step _ _ _ _ _ _ _
      (Step.stopBegin _ ClientStatus.kStop (by decide) (Or.inl rfl)) ?_
    refine Trace.step _ _ _ _ _ _ _
      (Step.shutdownStop _ 0 ⟨WorkThreadStatus.kUnknown, false, some [], [], false⟩ []
        (by decide) (by decide) rfl rfl) ?_
    refine Trace.step _ _ _ _ _ _ _ (Step.stopReturn _ (by decide) (by decide)) ?_
    exact Trace.refl _
  refine ⟨C1_callback_exactly_once.1 _ _ _ _ 7 htr (by decide) (by decide) (by decide), ?_⟩
  exact (C1_callback_exactly_once.2 ⟨[], some (some 5)⟩ 5 (some 42) rfl).1

/-- C3: for every `Execute` call while the global status is not Started,
the supplied callback is invoked synchronously with a null reply on the
caller's thread (the single atomic step of the call itself emits the
event) before `Execute` returns, and the request is never enqueued or
dispatched: the state is completely unchanged. -/
theorem C3_reject_not_started :
    ∀ (s : ClientState) (r : Nat) (e : List Event) (s' : ClientState),
      Step s (Action.exec r) e s' → s.status ≠ ClientStatus.kStarted →
      e = [Event.cb r none] ∧ s' = s := by
  intro s r e s' h hst
  cases h with
  | execRejected h => exact ⟨rfl, rfl⟩
  | execNullInbox q w hstarted hget hinbox => exact absurd hstarted hst
  | execAccepted q w l hstarted hget hinbox => exact absurd hstarted hst

/-- Witness for C3 at a concrete rejected `Execute`. -/
theorem C3_reject_not_started_witness :
    ([Event.cb 9 none] : List Event) = [Event.cb 9 none]
    ∧ (⟨ClientStatus.kInitial, 0, 1, []⟩ : ClientState)
        = ⟨ClientStatus.kInitial, 0, 1, []⟩ :=
  C3_reject_not_started ⟨ClientStatus.kInitial, 0, 1, []⟩ 9 _ _
    (Step.execRejected _ 9 (by decide)) (by decide)

/-- C10: when the callback shared_ptr is null or holds an empty
`std::function`, `RedisRequest::Success` performs no invocation (it is
guarded), while `RedisRequest::Fail` dereferences and invokes it
unconditionally (here: crashes); moreover `Fail` never silently skips the
callback the way the `Success` guard can. -/
theorem C10_fail_unguarded :
    (∀ (rq : RedisRequest) (reply : Reply),
      rq.callback = none ∨ rq.callback = some none →
      RedisRequest.Success rq reply = CallResult.noop
      ∧ RedisRequest.Fail rq = CallResult.crash)
    ∧ (∀ rq : RedisRequest, RedisRequest.Fail rq ≠ CallResult.noop) := by
  constructor
  · intro rq reply h
    rcases h with h | h <;>
      exact ⟨by simp [RedisRequest.Success, h], by simp [RedisRequest.Fail, h]⟩
  · intro rq
    unfold RedisRequest.Fail
    rcases rq.callback with _ | cb
    · simp
    · rcases cb with _ | f <;> simp

/-- Witness for C10: a request with a null callback shared_ptr, and one
with a callable callback. -/
theorem C10_fail_unguarded_witness :
    (RedisRequest.Success ⟨[], none⟩ (some 3) = CallResult.noop
      ∧ RedisRequest.Fail ⟨[], none⟩ = CallResult.crash)
    ∧ RedisRequest.Fail ⟨[], some (some 4)⟩ ≠ CallResult.noop :=
  ⟨C10_fail_unguarded.1 ⟨[], none⟩ (some 3) (Or.inl rfl),
   C10_fail_unguarded.2 ⟨[], some (some 4)⟩⟩

/-- C2: on `Stop()`, a worker's exit step fails exactly the requests still
in its inbox at that instant — the emitted events are `callback(null)` for
each of them, in order, and nothing is dispatched (the worker's in-flight
set is required empty, i.e. already-dispatched requests completed through
their normal `complete` path first, and after the Stop transition the
`drain` step that would dispatch queued requests is disabled); the inbox
is nulled and the worker exits; and `stopReturn` (the return of `Stop()`)
can fire only once every worker has exited. -/
theorem C2_stop_drain :
    (∀ (s : ClientState) (i : Nat) (e : List Event) (s' : ClientState) (w : WorkThread)
        (l : List Nat),
      Step s (Action.shutdownStop i) e s' → s.workers[i]? = some w → w.inbox = some l →
      e = l.map (fun r => Event.cb r none) ∧ w.dispatched = []
        ∧ s'.workers[i]? = some ⟨WorkThreadStatus.kExiting, false, none, [], true⟩)
    ∧ (∀ (s : ClientState) (i : Nat) (e : List Event) (s' : ClientState),
      Step s (Action.drain i) e s' → s.status ≠ ClientStatus.kStop)
    ∧ (∀ (s : ClientState) (e : List Event) (s' : ClientState),
      Step s Action.stopReturn e s' → ∀ w ∈ s.workers, w.exited = true) := by
  refine ⟨?_, ?_, ?_⟩
  · intro s i e s' w l h hget hinbox
    match h with
    | Step.shutdownStop _ _ w' l' hst hget' hinbox' hdisp' =>
      rw [hget] at hget'
      cases hget'
      rw [hinbox] at hinbox'
      cases hinbox'
      refine ⟨rfl, hdisp', ?_⟩
      have hlt : i < s.workers.length := by
        rw [List.getElem?_eq_some] at hget
        exact hget.1
      exact List.getElem?_set_eq_of_lt _ hlt
  · intro s i e s' h
    match h with
    | Step.drain _ _ w l hst hget hinbox hex =>
      rcases hst with h | h <;> rw [h] <;> decide
  · intro s e s' h
    match h with
    | Step.stopReturn _ hst hall =>
      exact fun w hw => (hall w hw).1

/-- Witness for C2 at a concrete Stop drain: one worker whose inbox holds
request 4, nothing in flight. -/
theorem C2_stop_drain_witness :
    ([Event.cb 4 none] : List Event) = [4].map (fun r => Event.cb r none)
    ∧ ([] : List Nat) = []
    ∧ (setWorker
        ⟨ClientStatus.kStop, 0, 1, [⟨WorkThreadStatus.kRunning, true, some [4], [], false⟩]⟩
        0 ⟨WorkThreadStatus.kExiting, false, none, [], true⟩).workers[0]?
      = some ⟨WorkThreadStatus.kExiting, false, none, [], true⟩ :=
  C2_stop_drain.1
    ⟨ClientStatus.kStop, 0, 1, [⟨WorkThreadStatus.kRunning, true, some [4], [], false⟩]⟩
    0 _ _ ⟨WorkThreadStatus.kRunning, true, some [4], [], false⟩ [4]
    (Step.shutdownStop _ 0 ⟨WorkThreadStatus.kRunning, true, some [4], [], false⟩ [4]
      rfl (by decide) rfl rfl)
    (by decide) rfl

/-- C6: on `Join()`, a worker may exit only once its inbox and in-flight
set are empty and its exit emits no callback(null) events — requests that
were queued at the transition instant are still dispatched (the `drain`
step stays enabled under Join status) and complete normally through
`complete`; only `Execute` calls made after the transition are rejected
with callback(null). -/
theorem C6_join_drain :
    (∀ (s : ClientState) (i : Nat) (e : List Event) (s' : ClientState) (w : WorkThread),
      Step s (Action.shutdownJoin i) e s' → s.workers[i]? = some w →
      e = [] ∧ w.inbox = some [] ∧ w.dispatched = [])
    ∧ (∀ (s : ClientState) (i : Nat) (w : WorkThread) (l : List Nat),
      s.status = ClientStatus.kJoin → s.workers[i]? = some w → w.inbox = some l →
      w.exited = false →
      Step s (Action.drain i) []
        (setWorker s i ⟨w.status, w.asyncHandleInit, some [], w.dispatched ++ l, w.exited⟩))
    ∧ (∀ (s : ClientState) (r : Nat) (e : List Event) (s' : ClientState),
      Step s (Action.exec r) e s' → s.status = ClientStatus.kJoin →
      e = [Event.cb r none] ∧ s' = s) := by
  refine ⟨?_, ?_, ?_⟩
  · intro s i e s' w h hget
    match h with
    | Step.shutdownJoin _ _ w' hst hget' hinbox' hdisp' =>
      rw [hget] at hget'
      cases hget'
      exact ⟨rfl, hinbox', hdisp'⟩
  · intro s i w l hst hget hinbox hex
    exact Step.drain s i w l (Or.inr hst) hget hinbox hex
  · intro s r e s' h hst
    match h with
    | Step.execRejected _ _ h => exact ⟨rfl, rfl⟩
    | Step.execNullInbox _ _ w hstarted hget hinbox =>
      rw [hst] at hstarted
      cases hstarted
    | Step.execAccepted _ _ w l hstarted hget hinbox =>
      rw [hst] at hstarted
      cases hstarted

/-- Witness for C6 at a concrete Join shutdown and drain. -/
theorem C6_join_drain_witness :
    (([] : List Event) = [] ∧ (some [] : Option (List Nat)) = some []
      ∧ ([] : List Nat) = [])
    ∧ Step ⟨ClientStatus.kJoin, 0, 1, [⟨WorkThreadStatus.kRunning, true, some [6], [], false⟩]⟩
        (Action.drain 0) []
        (setWorker
          ⟨ClientStatus.kJoin, 0, 1, [⟨WorkThreadStatus.kRunning, true, some [6], [], false⟩]⟩
          0 ⟨WorkThreadStatus.kRunning, true, some [], [] ++ [6], false⟩) :=
  ⟨C6_join_drain.1
      ⟨ClientStatus.kJoin, 0, 1, [⟨WorkThreadStatus.kExiting, false, some [], [], false⟩]⟩
      0 _ _ ⟨WorkThreadStatus.kExiting, false, some [], [], false⟩
      (Step.shutdownJoin _ 0 ⟨WorkThreadStatus.kExiting, false, some [], [], false⟩
        rfl (by decide) rfl rfl)
      (by decide),
   C6_join_drain.2.1
      ⟨ClientStatus.kJoin, 0, 1, [⟨WorkThreadStatus.kRunning, true, some [6], [], false⟩]⟩
      0 ⟨WorkThreadStatus.kRunning, true, some [6], [], false⟩ [6]
      rfl (by decide) rfl rfl⟩

/-- The status transitions the specification allows: unchanged, or
Initial→Started, or Started→Stop/Join, or Stop/Join→Initial with every
worker already exited. -/
def allowedTransition (s s' : ClientState) : Prop :=
  s'.status = s.status
  ∨ (s.status = ClientStatus.kInitial ∧ s'.status = ClientStatus.kStarted)
  ∨ (s.status = ClientStatus.kStarted
      ∧ (s'.status = ClientStatus.kStop ∨ s'.status = ClientStatus.kJoin))
  ∨ ((s.status = ClientStatus.kStop ∨ s.status = ClientStatus.kJoin)
      ∧ s'.status = ClientStatus.kInitial
      ∧ ∀ w ∈ s.workers, w.exited = true)

/-- C7: every step performs only an allowed lifecycle transition: the
status either stays put, or moves Initial→Started (`Start`),
Started→Stop/Join (`DoStopOrJoin`), or Stop/Join→Initial once all worker
threads have terminated (`Stop`/`Join` return). -/
theorem C7_status_transitions :
    ∀ (s : ClientState) (a : Action) (e : List Event) (s' : ClientState),
      Step s a e s' → allowedTransition s s' := by
  intro s a e s' h
  match h with
  | Step.configure _ tn hst => exact Or.inl rfl
  | Step.start _ hst hw => exact Or.inr (Or.inl ⟨hst, rfl⟩)
  | Step.publish _ i w hget hex hinit => exact Or.inl rfl
  | Step.execRejected _ q hst => exact Or.inl rfl
  | Step.execNullInbox _ q w hst hget hinbox => exact Or.inl rfl
  | Step.execAccepted _ q w l hst hget hinbox => exact Or.inl rfl
  | Step.drain _ i w l hst hget hinbox hex => exact Or.inl rfl
  | Step.complete _ i q reply w hget hmem => exact Or.inl rfl
  | Step.stopBegin _ op hst hop =>
    refine Or.inr (Or.inr (Or.inl ⟨hst, ?_⟩))
    rcases hop with h | h
    · exact Or.inl (by rw [h])
    · exact Or.inr (by rw [h])
  | Step.shutdownStop _ i w l hst hget hinbox hdisp => exact Or.inl rfl
  | Step.shutdownJoin _ i w hst hget hinbox hdisp => exact Or.inl rfl
  | Step.stopReturn _ hst hall =>
    exact Or.inr (Or.inr (Or.inr ⟨hst, rfl, fun w hw => (hall w hw).1⟩))

/-- Witness for C7 at a concrete `Start` step. -/
theorem C7_status_transitions_witness :
    allowedTransition ⟨ClientStatus.kInitial, 0, 2, []⟩
      ⟨ClientStatus.kStarted, 0, 2, freshWorkers 2⟩ :=
  C7_status_transitions ⟨ClientStatus.kInitial, 0, 2, []⟩ Action.start [] _
    (Step.start _ rfl rfl)

lemma getElem?_set_cases (l : List WorkThread) (i j : Nat) (w x : WorkThread)
    (h : (l.set j w)[i]? = some x) : (i = j ∧ x = w) ∨ (i ≠ j ∧ l[i]? = some x) := by
  by_cases hij : i = j
  · subst hij
    refine Or.inl ⟨rfl, ?_⟩
    have hlt : i < l.length := by
      rw [List.getElem?_eq_some] at h
      obtain ⟨hl, _⟩ := h
      simpa using hl
    rw [List.getElem?_set_eq_of_lt w hlt] at h
    exact (Option.some.inj h).symm
  · exact Or.inr ⟨hij, by rwa [List.getElem?_set_ne (fun hji => hij hji.symm)] at h⟩

/-- C4: an `Execute` call that observes the selected worker's inbox
reference to be null does not append the request anywhere; it invokes the
callback with null on the caller's thread (the event of the same atomic
step) and leaves every worker untouched.  Conversely, an inbox can turn
null in a step only if that step also marks its worker exited (the worker
exit paths are the only writers of null, and they run under the same
worker mutex — modelled by step atomicity). -/
theorem C4_null_inbox :
    (∀ (s : ClientState) (r : Nat) (e : List Event) (s' : ClientState) (w : WorkThread),
      Step s (Action.exec r) e s' → s.status = ClientStatus.kStarted →
      s.workers[execTarget s.seq s.threadNum]? = some w → w.inbox = none →
      e = [Event.cb r none] ∧ s'.workers = s.workers)
    ∧ (∀ (s : ClientState) (a : Action) (e : List Event) (s' : ClientState) (i : Nat)
        (w w' : WorkThread),
      Step s a e s' → s.workers[i]? = some w → s'.workers[i]? = some w' →
      w.inbox ≠ none → w'.inbox = none → w'.exited = true) := by
  constructor
  · intro s r e s' w h hstat hget hnone
    match h with
    | Step.execRejected _ _ hns => exact absurd hstat hns
    | Step.execNullInbox _ _ w2 hst hget2 hnone2 => exact ⟨rfl, rfl⟩
    | Step.execAccepted _ _ w2 l hst hget2 hsome =>
      rw [hget] at hget2
      cases hget2
      rw [hnone] at hsome
      exact absurd hsome (by simp)
  · intro s a e s' i w w' h hget hget' hne hnull
    revert hget'
    match h with
    | Step.configure _ tn hst =>
      intro hget'
      dsimp only at hget'
      rw [hget] at hget'
      cases hget'
      exact absurd hnull hne
    | Step.start _ hst hw =>
      intro hget'
      rw [hw] at hget
      simp at hget
    | Step.publish _ j v hgv hex hinit =>
      intro hget'
      dsimp only [setWorker] at hget'
      rcases getElem?_set_cases _ _ _ _ _ hget' with ⟨rfl, rfl⟩ | ⟨hij, hg⟩
      · dsimp only at hnull
        rw [hget] at hgv
        cases hgv
        exact absurd hnull hne
      · rw [hget] at hg
        cases hg
        exact absurd hnull hne
    | Step.execRejected _ q hns =>
      intro hget'
      rw [hget] at hget'
      cases hget'
      exact absurd hnull hne
    | Step.execNullInbox _ q v hst hgv hnv =>
      intro hget'
      dsimp only at hget'
      rw [hget] at hget'
      cases hget'
      exact absurd hnull hne
    | Step.execAccepted _ q v l hst hgv hsv =>
      intro hget'
      dsimp only at hget'
      rcases getElem?_set_cases _ _ _ _ _ hget' with ⟨rfl, rfl⟩ | ⟨hij, hg⟩
      · dsimp only at hnull
        exact absurd hnull (by simp)
      · rw [hget] at hg
        cases hg
        exact absurd hnull hne
    | Step.drain _ j v l hst hgv hsv hexv =>
      intro hget'
      dsimp only [setWorker] at hget'
      rcases getElem?_set_cases _ _ _ _ _ hget' with ⟨rfl, rfl⟩ | ⟨hij, hg⟩
      · dsimp only at hnull
        exact absurd hnull (by simp)
      · rw [hget] at hg
        cases hg
        exact absurd hnull hne
    | Step.complete _ j q reply v hgv hmem =>
      intro hget'
      dsimp only [setWorker] at hget'
      rcases getElem?_set_cases _ _ _ _ _ hget' with ⟨rfl, rfl⟩ | ⟨hij, hg⟩
      · dsimp only at hnull
        rw [hget] at hgv
        cases hgv
        exact absurd hnull hne
      · rw [hget] at hg
        cases hg
        exact absurd hnull hne
    | Step.stopBegin _ op hst hop =>
      intro hget'
      dsimp only at hget'
      rw [hget] at hget'
      cases hget'
      exact absurd hnull hne
    | Step.shutdownStop _ j v l hst hgv hsv hdv =>
      intro hget'
      dsimp only [setWorker] at hget'
      rcases getElem?_set_cases _ _ _ _ _ hget' with ⟨rfl, rfl⟩ | ⟨hij, hg⟩
      · rfl
      · rw [hget] at hg
        cases hg
        exact absurd hnull hne
    | Step.shutdownJoin _ j v hst hgv hsv hdv =>
      intro hget'
      dsimp only [setWorker] at hget'
      rcases getElem?_set_cases _ _ _ _ _ hget' with ⟨rfl, rfl⟩ | ⟨hij, hg⟩
      · rfl
      · rw [hget] at hg
        cases hg
        exact absurd hnull hne
    | Step.stopReturn _ hst hall =>
      intro hget'
      dsimp only at hget'
      simp at hget'

/-- Witness for C4: a rejected `Execute` against a nulled inbox, and a
worker exit that nulls the inbox while marking the worker exited. -/
theorem C4_null_inbox_witness :
    (([Event.cb 3 none] : List Event) = [Event.cb 3 none]
      ∧ ([⟨WorkThreadStatus.kExiting, false, none, [], true⟩] : List WorkThread)
          = [⟨WorkThreadStatus.kExiting, false, none, [], true⟩])
    ∧ (true : Bool) = true :=
  ⟨C4_null_inbox.1
      ⟨ClientStatus.kStarted, 0, 1, [⟨WorkThreadStatus.kExiting, false, none, [], true⟩]⟩
      3 _ _ ⟨WorkThreadStatus.kExiting, false, none, [], true⟩
      (Step.execNullInbox _ 3 ⟨WorkThreadStatus.kExiting, false, none, [], true⟩
        rfl (by decide) rfl)
      rfl (by decide) rfl,
   C4_null_inbox.2
      ⟨ClientStatus.kStop, 0, 1, [⟨WorkThreadStatus.kRunning, true, some [], [], false⟩]⟩
      (Action.shutdownStop 0) _ _ 0
      ⟨WorkThreadStatus.kRunning, true, some [], [], false⟩
      ⟨WorkThreadStatus.kExiting, false, none, [], true⟩
      (Step.shutdownStop _ 0 ⟨WorkThreadStatus.kRunning, true, some [], [], false⟩ []
        rfl (by decide) rfl rfl)
      (by decide) (by decide) (by decide) rfl⟩

lemma mem_sendAllFrom (ws : List WorkThread) (k i : Nat)
    (h : Event.send i ∈ sendAllFrom k ws) :
    ∃ j w, ws[j]? = some w ∧ w.asyncHandleInit = true ∧ i = k + j := by
  induction ws generalizing k with
  | nil => simp [sendAllFrom] at h
  | cons w ws ih =>
    rw [sendAllFrom, List.mem_append] at h
    rcases h with h | h
    · unfold WorkThread.AsyncSendUnlock at h
      simp at h
      obtain ⟨h1, h2⟩ := h
      exact ⟨0, w, by simp, h1, by omega⟩
    · obtain ⟨j, v, hget, hinit, hik⟩ := ih (k + 1) h
      exact ⟨j + 1, v, by simpa using hget, hinit, by omega⟩

/-- C9: the wakeup handle is signalled only when initialised — the
header's `AsyncSendUnlock` emits nothing when the handle is null, every
`uv_async_send` event of any step targets a worker whose handle is
non-null (i.e. whose Reactor finished initialising), and the handle can
turn from null to non-null only through the worker's own `publish` step,
which models the Reactor finishing initialisation and runs under the same
worker mutex as the signalling. -/
theorem C9_async_handle :
    (∀ (w : WorkThread) (i : Nat), w.asyncHandleInit = false → w.AsyncSendUnlock i = [])
    ∧ (∀ (s : ClientState) (a : Action) (e : List Event) (s' : ClientState) (i : Nat),
      Step s a e s' → Event.send i ∈ e →
      ∃ w, s.workers[i]? = some w ∧ w.asyncHandleInit = true)
    ∧ (∀ (s : ClientState) (a : Action) (e : List Event) (s' : ClientState) (i : Nat)
        (w w' : WorkThread),
      Step s a e s' → s.workers[i]? = some w → s'.workers[i]? = some w' →
      w.asyncHandleInit = false → w'.asyncHandleInit = true → a = Action.publish i) := by
  refine ⟨?_, ?_, ?_⟩
  · intro w i h
    unfold WorkThread.AsyncSendUnlock
    rw [h]
    rfl
  · intro s a e s' i h hmem
    match h with
    | Step.configure _ tn hst => simp at hmem
    | Step.start _ hst hw => simp at hmem
    | Step.publish _ j v hgv hex hinit => simp at hmem
    | Step.execRejected _ q hns => simp at hmem
    | Step.execNullInbox _ q v hst hgv hnv => simp at hmem
    | Step.execAccepted _ q v l hst hgv hsv =>
      unfold WorkThread.AsyncSendUnlock at hmem
      simp at hmem
      exact ⟨v, by rw [hmem.2]; exact hgv, hmem.1⟩
    | Step.drain _ j v l hst hgv hsv hexv => simp at hmem
    | Step.complete _ j q reply v hgv hm => simp at hmem
    | Step.stopBegin _ op hst hop =>
      obtain ⟨j, v, hget, hinit, hij⟩ := mem_sendAllFrom s.workers 0 i hmem
      refine ⟨v, ?_, hinit⟩
      rw [hij]
      simpa using hget
    | Step.shutdownStop _ j v l hst hgv hsv hdv =>
      rcases List.mem_map.mp hmem with ⟨q, hq, hcb⟩
      cases hcb
    | Step.shutdownJoin _ j v hst hgv hsv hdv => simp at hmem
    | Step.stopReturn _ hst hall => simp at hmem
  · intro s a e s' i w w' h hget hget' hfalse htrue
    revert hget'
    match h with
    | Step.configure _ tn hst =>
      intro hget'
      dsimp only at hget'
      rw [hget] at hget'
      cases hget'
      rw [hfalse] at htrue
      cases htrue
    | Step.start _ hst hw =>
      intro hget'
      rw [hw] at hget
      simp at hget
    | Step.publish _ j v hgv hex hinit =>
      intro hget'
      dsimp only [setWorker] at hget'
      rcases getElem?_set_cases _ _ _ _ _ hget' with ⟨rfl, rfl⟩ | ⟨hij, hg⟩
      · rfl
      · rw [hget] at hg
        cases hg
        rw [hfalse] at htrue
        cases htrue
    | Step.execRejected _ q hns =>
      intro hget'
      rw [hget] at hget'
      cases hget'
      rw [hfalse] at htrue
      cases htrue
    | Step.execNullInbox _ q v hst hgv hnv =>
      intro hget'
      dsimp only at hget'
      rw [hget] at hget'
      cases hget'
      rw [hfalse] at htrue
      cases htrue
    | Step.execAccepted _ q v l hst hgv hsv =>
      intro hget'
      dsimp only at hget'
      rcases getElem?_set_cases _ _ _ _ _ hget' with ⟨rfl, rfl⟩ | ⟨hij, hg⟩
      · dsimp only at htrue
        rw [hget] at hgv
        cases hgv
        rw [hfalse] at htrue
        cases htrue
      · rw [hget] at hg
        cases hg
        rw [hfalse] at htrue
        cases htrue
    | Step.drain _ j v l hst hgv hsv hexv =>
      intro hget'
      dsimp only [setWorker] at hget'
      rcases getElem?_set_cases _ _ _ _ _ hget' with ⟨rfl, rfl⟩ | ⟨hij, hg⟩
      · dsimp only at htrue
        rw [hget] at hgv
        cases hgv
        rw [hfalse] at htrue
        cases htrue
      · rw [hget] at hg
        cases hg
        rw [hfalse] at htrue
        cases htrue
    | Step.complete _ j q reply v hgv hm =>
      intro hget'
      dsimp only [setWorker] at hget'
      rcases getElem?_set_cases _ _ _ _ _ hget' with ⟨rfl, rfl⟩ | ⟨hij, hg⟩
      · dsimp only at htrue
        rw [hget] at hgv
        cases hgv
        rw [hfalse] at htrue
        cases htrue
      · rw [hget] at hg
        cases hg
        rw [hfalse] at htrue
        cases htrue
    | Step.stopBegin _ op hst hop =>
      intro hget'
      dsimp only at hget'
      rw [hget] at hget'
      cases hget'
      rw [hfalse] at htrue
      cases htrue
    | Step.shutdownStop _ j v l hst hgv hsv hdv =>
      intro hget'
      dsimp only [setWorker] at hget'
      rcases getElem?_set_cases _ _ _ _ _ hget' with ⟨rfl, rfl⟩ | ⟨hij, hg⟩
      · dsimp only at htrue
        cases htrue
      · rw [hget] at hg
        cases hg
        rw [hfalse] at htrue
        cases htrue
    | Step.shutdownJoin _ j v hst hgv hsv hdv =>
      intro hget'
      dsimp only [setWorker] at hget'
      rcases getElem?_set_cases _ _ _ _ _ hget' with ⟨rfl, rfl⟩ | ⟨hij, hg⟩
      · dsimp only at htrue
        cases htrue
      · rw [hget] at hg
        cases hg
        rw [hfalse] at htrue
        cases htrue
    | Step.stopReturn _ hst hall =>
      intro hget'
      dsimp only at hget'
      simp at hget'

/-- Witness for C9: a null handle is never signalled; a send emitted by a
worker with a published handle traces back to that worker; and a concrete
publish step is the transition that turns the handle non-null. -/
theorem C9_async_handle_witness :
    (WorkThread.AsyncSendUnlock ⟨WorkThreadStatus.kUnknown, false, some [], [], false⟩ 0 = [])
    ∧ (∃ w, ([⟨WorkThreadStatus.kRunning, true, some [], [], false⟩]
          : List WorkThread)[0]? = some w ∧ w.asyncHandleInit = true)
    ∧ Action.publish 0 = Action.publish 0 := by
  refine ⟨C9_async_handle.1 ⟨WorkThreadStatus.kUnknown, false, some [], [], false⟩ 0 rfl,
    C9_async_handle.2.1
      ⟨ClientStatus.kStarted, 0, 1, [⟨WorkThreadStatus.kRunning, true, some [], [], false⟩]⟩
      (Action.exec 2) _ _ 0
      (Step.execAccepted _ 2 ⟨WorkThreadStatus.kRunning, true, some [], [], false⟩ []
        rfl (by decide) rfl)
      (by decide),
    C9_async_handle.2.2
      ⟨ClientStatus.kStarted, 0, 1, [⟨WorkThreadStatus.kUnknown, false, some [], [], false⟩]⟩
      (Action.publish 0) _ _ 0
      ⟨WorkThreadStatus.kUnknown, false, some [], [], false⟩
      ⟨WorkThreadStatus.kRunning, true, some [], [], false⟩
      (Step.publish _ 0 ⟨WorkThreadStatus.kUnknown, false, some [], [], false⟩
        (by decide) rfl rfl)
      (by decide) (by decide) rfl rfl⟩

lemma seqIter_no_wrap (c T : Nat) (hle : c + T ≤ UINT_MOD) :
    ∀ k, k < T → seqIter c k = c + k := by
  intro k
  induction k with
  | zero => intro _; rfl
  | succ k ih =>
    intro hk
    have hk' : k < T := Nat.lt_of_succ_lt hk
    rw [seqIter, ih hk', execSeq]
    have hlt : c + k + 1 < UINT_MOD := by omega
    exact Nat.mod_eq_of_lt hlt

/-- C5 counterexample: with the 32-bit `std::atomic_uint seq_num` and
`thread_num = 3`, the run of 3 consecutive `Execute` calls whose first
call observes counter value 2^32 - 1 spans the counter's wrap point and
selects workers 0, 0, 1: worker 0 twice and worker 2 never — refuting the
claim's parenthetical that runs spanning the wrap point still hit each
worker exactly once. -/
theorem C5_round_robin_counterexample :
    targets (UINT_MOD - 1) 3 3 = [0, 0, 1]
    ∧ (targets (UINT_MOD - 1) 3 3).count 0 = 2
    ∧ (targets (UINT_MOD - 1) 3 3).count 2 = 0 := by
  refine ⟨?_, ?_, ?_⟩ <;> decide

/-- C5 amended: `Execute` selects the target worker as the value of the
single atomic 32-bit dispatch counter reduced mod `thread_count`,
incremented once per accepted call; every run of `thread_count`
consecutive `Execute` calls that does not span the counter's 2^32 wrap
point selects each of the `thread_count` workers exactly once. -/
theorem C5_round_robin_amended :
    ∀ (c T j : Nat), 0 < T → c + T ≤ UINT_MOD → j < T →
      (targets c T T).count j = 1 := by
  intro c T j hT hle hj
  have hmap : targets c T T = (List.range T).map (fun k => (c + k) % T) := by
    unfold targets
    apply List.map_congr_left
    intro k hk
    rw [List.mem_range] at hk
    rw [seqIter_no_wrap c T hle k hk]
    rfl
  rw [hmap]
  have hnodup : ((List.range T).map (fun k => (c + k) % T)).Nodup := by
    refine List.Nodup.map_on ?_ (List.nodup_range T)
    intro x hx y hy hxy
    rw [List.mem_range] at hx hy
    have h1 : x % T = y % T := Nat.ModEq.add_left_cancel rfl hxy
    rwa [Nat.mod_eq_of_lt hx, Nat.mod_eq_of_lt hy] at h1
  have hmem : j ∈ (List.range T).map (fun k => (c + k) % T) := by
    rw [List.mem_map]
    refine ⟨(j + T - c % T) % T, ?_, ?_⟩
    · rw [List.mem_range]
      exact Nat.mod_lt _ hT
    · rw [Nat.add_mod_mod]
      have hc : c % T < T := Nat.mod_lt c hT
      have hdm := Nat.div_add_mod c T
      have h2 : c + (j + T - c % T) = T * (c / T) + (T + j) := by omega
      rw [h2, Nat.mul_add_mod, Nat.add_mod_left]
      exact Nat.mod_eq_of_lt hj
  exact List.count_eq_one_of_mem hnodup hmem

/-- Witness for the amended C5: three calls from counter value 5 with
three workers hit worker 2 exactly once. -/
theorem C5_round_robin_amended_witness :
    (targets 5 3 3).count 1 = 1 :=
  C5_round_robin_amended 5 3 1 (by decide) (by decide) (by decide)

lemma getElem?_freshWorkers (n i : Nat) (h : i < n) :
    (freshWorkers n)[i]? = some freshWorker := by
  unfold freshWorkers
  simp [List.getElem?_replicate, h]

/-- The state reached from a post-`Stop`/`Join` state `s` by reconfiguring
to `tn` threads, restarting, and executing one request `r`: Started, the
counter advanced once, and `r` queued in the selected fresh worker's
inbox. -/
def restartState (s : ClientState) (tn r : Nat) : ClientState :=
  ⟨ClientStatus.kStarted, execSeq s.seq, tn,
    (freshWorkers tn).set (execTarget s.seq tn)
      ⟨WorkThreadStatus.kUnknown, false, some [r], [], false⟩⟩

/-- C8: when `Stop()`/`Join()` returns (the `stopReturn` step), the status
is back to Initial and the worker vector is released; from there the
configuration fields may be mutated again (`configure` is enabled), and a
subsequent `Start()` followed by `Execute()` behaves as on a freshly
constructed client: the request is accepted and queued on the worker
selected by the dispatch counter. -/
theorem C8_restart :
    ∀ (s : ClientState) (e : List Event) (s' : ClientState),
      Step s Action.stopReturn e s' →
      s'.status = ClientStatus.kInitial ∧ s'.workers = []
      ∧ ∀ (tn r : Nat), 0 < tn →
          Trace s' [Action.configure tn, Action.start, Action.exec r]
            ([] ++ ([] ++ ([] ++ [])))
            (restartState s' tn r)
          ∧ pending (restartState s' tn r) r = 1 := by
  intro s e s' h
  match h with
  | Step.stopReturn _ hst hall =>
    refine ⟨rfl, rfl, ?_⟩
    intro tn r htn
    constructor
    · refine Trace.step _ _ _ _ _ _ _ (Step.configure _ tn rfl) ?_
      refine Trace.step _ _ _ _ _ _ _ (Step.start _ rfl rfl) ?_
      refine Trace.step _ _ _ _ _ _ _
        (Step.execAccepted _ r freshWorker [] rfl
          (getElem?_freshWorkers tn _ (Nat.mod_lt _ htn)) rfl) ?_
      exact Trace.refl _
    · have hs := sum_wPending_set (freshWorkers tn) (execTarget s.seq tn) freshWorker
        ⟨WorkThreadStatus.kUnknown, false, some [r], [], false⟩ r
        (getElem?_freshWorkers tn _ (Nat.mod_lt _ htn))
      have hfresh : ((freshWorkers tn).map (fun x => wPending x r)).sum = 0 := by
        simp [freshWorkers, List.map_replicate, List.sum_const_nat, wPending, freshWorker]
      have hone : wPending ⟨WorkThreadStatus.kUnknown, false, some [r], [], false⟩ r
          = 1 := by
        simp [wPending]
      have hzero : wPending freshWorker r = 0 := rfl
      simp only [pending, restartState]
      omega

/-- Witness for C8: a concrete `Stop` return with one exited worker,
followed by reconfiguration to two threads, restart, and an accepted
`Execute`. -/
theorem C8_restart_witness :
    Trace ⟨ClientStatus.kInitial, 0, 2, []⟩
      [Action.configure 2, Action.start, Action.exec 5] ([] ++ ([] ++ ([] ++ [])))
      (restartState ⟨ClientStatus.kInitial, 0, 2, []⟩ 2 5)
    ∧ pending (restartState ⟨ClientStatus.kInitial, 0, 2, []⟩ 2 5) 5 = 1 :=
  (C8_restart
    ⟨ClientStatus.kStop, 0, 2, [⟨WorkThreadStatus.kExiting, false, none, [], true⟩]⟩
    [] _
    (Step.stopReturn _ (Or.inl rfl) (by decide))).2.2 2 5 (by decide)

end AsyncRedisClient
